import Mathlib

/-!
Verification of the refcount + reconciliation engine of the
docker-volume-vsphere plugin (vmdk_plugin/utils/refcount/refcnt.go).

The Go code is shallowly embedded: the mutex-guarded
map[string]*refCount becomes an association list with explicit state
passing, the uint count field becomes Nat, the error results become
Option String, and the volume driver plus the outcalls made by the
reconciler are modelled as a record of response functions plus an
explicit trace of driver calls.
-/

namespace Refcount

/-- Embeds struct refCount (refcnt.go lines 101 to 112): refcount for the
given volume, whether the volume is mounted from the OS point of view, and
the device the volume is mounted from. The Go field count has type uint,
embedded as Nat. -/
structure refCount where
  count : Nat
  mounted : Bool
  dev : String
deriving DecidableEq

/-- The refMap field of RefCountsMap, a Go map[string]*refCount, embedded
as an association list from volume name to record. Go map iteration order
is unspecified; the list order stands in for one such order. -/
abbrev RefMap := List (String × refCount)

/-- Go map lookup m[k]: the value at the first matching key, if any. -/
def mapGet (k : String) : RefMap → Option refCount
  | [] => none
  | (q, v) :: rest => if q = k then some v else mapGet k rest

/-- Go map store m[k] = v, also covering in-place mutation through the
*refCount pointer held in the map: replace the first entry with key k,
or append a new entry. -/
def mapSet (k : String) (v : refCount) : RefMap → RefMap
  | [] => [(k, v)]
  | (q, w) :: rest => if q = k then (k, v) :: rest else (q, w) :: mapSet k v rest

/-- Go delete(m, k): drop the first entry with key k. -/
def mapDel (k : String) : RefMap → RefMap
  | [] => []
  | (q, w) :: rest => if q = k then rest else (q, w) :: mapDel k rest

/-- A Go map never holds a key twice; association lists representing
refMap states satisfy this. -/
abbrev keysNodup (s : RefMap) : Prop := (s.map Prod.fst).Nodup

/-- newRefCount (refcnt.go lines 146 to 150): count zero; mounted and dev
take the Go zero values false and the empty string. -/
def newRefCount : refCount :=
  { count := 0, mounted := false, dev := "" }

/-- GetCount (refcnt.go lines 200 to 210): 0 when the volume is not in
the map, its count otherwise. -/
def GetCount (vol : String) (s : RefMap) : Nat :=
  match mapGet vol s with
  | none => 0
  | some rc => rc.count

/-- Incr (refcnt.go lines 213 to 225): create a new entry if needed, then
increment the count through the map pointer and return the new count.
Returns the new count together with the updated map. -/
def Incr (vol : String) (s : RefMap) : Nat × RefMap :=
  let rc := (mapGet vol s).getD newRefCount
  let rc2 := { rc with count := rc.count + 1 }
  (rc2.count, mapSet vol rc2 s)

/-- Result of Decr: returned count, returned error (as Option String),
the map after the call, and whether the negative-refcount warning branch
(refcnt.go lines 251 to 253) fired. -/
structure DecrOut where
  ret : Nat
  err : Option String
  store : RefMap
  negWarn : Bool
deriving DecidableEq

/-- Decr (refcnt.go lines 230 to 259). Missing volume: error, map
untouched. Count already zero: delete the entry, return 0 with no error.
Otherwise decrement; the Go source then tests rc.count < 0 (a uint
comparison, embedded as the Nat comparison below) only to log a warning,
and deletes the entry when the new count is <= 0. -/
def Decr (vol : String) (s : RefMap) : DecrOut :=
  match mapGet vol s with
  | none => { ret := 0, err := some ("Decr: Missing refcount. name=" ++ vol),
              store := s, negWarn := false }
  | some rc =>
    if rc.count = 0 then
      { ret := 0, err := none, store := mapDel vol s, negWarn := false }
    else
      let c := rc.count - 1
      let warn := decide (c < 0)
      if c ≤ 0 then
        { ret := c, err := none, store := mapDel vol s, negWarn := warn }
      else
        { ret := c, err := none, store := mapSet vol { rc with count := c } s,
          negWarn := warn }

/-- A single client call against the store: Incr or Decr on a fixed
volume. -/
inductive Op where
  | incr : Op
  | decr : Op
deriving DecidableEq

/-- Run a sequence of Incr and Decr calls for volume vol against the
store. -/
def runOps (vol : String) : List Op → RefMap → RefMap
  | [], s => s
  | Op.incr :: rest, s => runOps vol rest (Incr vol s).2
  | Op.decr :: rest, s => runOps vol rest (Decr vol s).store

/-- Number of Incr calls in the sequence. -/
def countIncr (ops : List Op) : Nat := ops.count Op.incr

/-- Number of Decr calls in the sequence. -/
def countDecr (ops : List Op) : Nat := ops.count Op.decr

/-- Each decrement is preceded by a matching increment: running balance
(starting at b) never goes below zero at a decrement. -/
def noUnmatchedDecr : Nat → List Op → Bool
  | _, [] => true
  | b, Op.incr :: rest => noUnmatchedDecr (b + 1) rest
  | b, Op.decr :: rest => decide (0 < b) && noUnmatchedDecr (b - 1) rest

/-- splitAux-style splitter over characters: cut the character list at
every character satisfying p, keeping empty pieces. Models the splitting
behaviour of the Go strings package. -/
def splitChars (p : Char → Bool) (acc : List Char) : List Char → List (List Char)
  | [] => [acc.reverse]
  | c :: cs => if p c then acc.reverse :: splitChars p [] cs
               else splitChars p (c :: acc) cs

/-- Go strings.Fields(line) (used at refcnt.go line 388): the maximal
runs of non-whitespace characters. -/
def goFields (s : String) : List String :=
  ((splitChars (fun c => c.isWhitespace) [] s.data).filter
      (fun f => f ≠ [])).map (fun f => String.mk f)

/-- Go strings.Split(data, newline) (used at refcnt.go line 387). -/
def goLines (s : String) : List String :=
  (splitChars (fun c => c = '\n') [] s.data).map (fun l => String.mk l)

/-- Body of the getMountInfo loop (refcnt.go lines 387 to 405) for one
line of /proc/mounts. The library calls filepath.Dir and filepath.Base
are kept abstract as the parameters dirF and baseF: skip lines with
fewer than two fields, skip lines whose mount point is not directly
under root, otherwise fetch or create the record for the base name of
the mount point and mark it mounted from the device in field 0. -/
def processLine (dirF baseF : String → String) (root : String)
    (m : RefMap) (line : String) : RefMap :=
  match goFields line with
  | f0 :: f1 :: _ =>
    if dirF f1 ≠ root then m
    else
      let volName := baseF f1
      let refInfo := (mapGet volName m).getD newRefCount
      mapSet volName { refInfo with mounted := true, dev := f0 } m
  | _ => m

/-- getMountInfo (refcnt.go lines 377 to 408), success path after the
mounts file was read into data: fold the per-line update over all lines. -/
def getMountInfo (dirF baseF : String → String) (mountRoot : String)
    (data : String) (m : RefMap) : RefMap :=
  (goLines data).foldl (processLine dirF baseF mountRoot) m

/-- A concrete parent-directory function for exercising the scanner:
everything before the last path separator. -/
def simpleDir (s : String) : String :=
  String.mk (List.intercalate ['/']
    ((splitChars (fun c => c = '/') [] s.data).dropLast))

/-- A concrete final-component function for exercising the scanner:
everything after the last path separator. -/
def simpleBase (s : String) : String :=
  String.mk (((splitChars (fun c => c = '/') [] s.data).getLast?).getD [])

/-- A dynamically typed Go interface value as stored in the status map
returned by GetVolume: either a string or some non-string value. -/
inductive GoVal where
  | str : String → GoVal
  | other : GoVal
deriving DecidableEq

/-- The map[string]interface that GetVolume returns, as an association
list. -/
abbrev VolumeStatus := List (String × GoVal)

/-- Go map lookup on a volume status map. -/
def statusGet (status : VolumeStatus) (k : String) : Option GoVal :=
  match status with
  | [] => none
  | (q, v) :: rest => if q = k then some v else statusGet rest k

/-- photonDriver constant (refcnt.go line 97). -/
def photonDriver : String := "photon"

/-- The disk id computed at refcnt.go lines 352 to 358: for the photon
driver, the comma-ok string assertion on status at key ID, which yields
the empty string (plus a logged warning) when the key is absent or not a
string; the empty string for every other driver. -/
def photonId (dn : String) (status : VolumeStatus) : String :=
  if dn = photonDriver then
    match statusGet status "ID" with
    | some (GoVal.str s) => s
    | _ => ""
  else ""

/-- The isReadOnly flag computed at refcnt.go lines 360 to 365: true
exactly when the status map holds the string read-only at key access
(a Go interface comparison, false for non-string values). -/
def readOnlyOf (status : VolumeStatus) : Bool :=
  match statusGet status "access" with
  | some (GoVal.str a) => a == "read-only"
  | _ => false

/-- One call issued to the injected drivers.VolumeDriver. -/
inductive DriverCall where
  | unmountVolume : String → DriverCall
  | getVolume : String → DriverCall
  | mountVolume : String → String → String → Bool → Bool → DriverCall
deriving DecidableEq

/-- The volume name an individual driver call is about. -/
def callVol : DriverCall → String
  | DriverCall.unmountVolume v => v
  | DriverCall.getVolume v => v
  | DriverCall.mountVolume v _ _ _ _ => v

/-- The injected drivers.VolumeDriver, modelled by its responses:
UnmountVolume yields an optional error, GetVolume yields a status map or
an error, MountVolume yields a mount path or an error. -/
structure VolumeDriver where
  unmountVolumeRes : String → Option String
  getVolumeRes : String → Except String VolumeStatus
  mountVolumeRes : String → String → String → Bool → Bool → Except String String

/-- The two ways the reconciler can abort: the log.Panic at refcnt.go
line 340 for a record with count 0 and mounted false, and the run time
panic of the unchecked type assertion on the fstype status value at
line 366. -/
inductive SyncPanic where
  | recordShouldNotExist : String → SyncPanic
  | fstypeAssertion : String → SyncPanic
deriving DecidableEq

/-- The mounted == false, count > 0 recovery branch (refcnt.go lines 346
to 370): query GetVolume; on error only log; on success compute the
photon disk id and the read-only flag and call MountVolume with the
status value at fstype asserted to be a string, which panics when the
key is absent or not a string. Returns the driver calls made and the
panic, if one occurred. -/
def recoveryMount (d : VolumeDriver) (dn : String) (vol : String) :
    List DriverCall × Option SyncPanic :=
  match d.getVolumeRes vol with
  | Except.error _ => ([DriverCall.getVolume vol], none)
  | Except.ok status =>
    match statusGet status "fstype" with
    | some (GoVal.str fstype) =>
      ([DriverCall.getVolume vol,
        DriverCall.mountVolume vol fstype (photonId dn status)
          (readOnlyOf status) false], none)
    | _ => ([DriverCall.getVolume vol], some (SyncPanic.fstypeAssertion vol))

/-- The body of the syncMountsWithRefCounters loop (refcnt.go lines 317
to 373) for one map entry: mounted and count 0 issues one unmount (an
unmount error is only logged); mounted and count > 0 does nothing;
unmounted and count 0 hits log.Panic; unmounted and count > 0 attempts a
recovery mount. -/
def syncVolume (d : VolumeDriver) (dn : String) (vol : String)
    (cnt : refCount) : List DriverCall × Option SyncPanic :=
  if cnt.mounted = true then
    if cnt.count = 0 then ([DriverCall.unmountVolume vol], none)
    else ([], none)
  else
    if cnt.count = 0 then ([], some (SyncPanic.recordShouldNotExist vol))
    else recoveryMount d dn vol

/-- syncMountsWithRefCounters (refcnt.go lines 312 to 374): process the
map entries in iteration order, accumulating driver calls; a panic
propagates and stops the iteration. -/
def syncMountsWithRefCounters (d : VolumeDriver) (dn : String) :
    RefMap → List DriverCall × Option SyncPanic
  | [] => ([], none)
  | (vol, cnt) :: rest =>
    let r := syncVolume d dn vol cnt
    match r.2 with
    | some p => (r.1, some p)
    | none =>
      let rr := syncMountsWithRefCounters d dn rest
      (r.1 ++ rr.1, rr.2)

/-- Recognizer for UnmountVolume calls on a given volume. -/
def isUnmountFor (vol : String) : DriverCall → Bool
  | DriverCall.unmountVolume v => v == vol
  | _ => false

/-- Recognizer for MountVolume calls on a given volume. -/
def isMountFor (vol : String) : DriverCall → Bool
  | DriverCall.mountVolume v _ _ _ _ => v == vol
  | _ => false

/-- Recognizer for GetVolume calls on a given volume. -/
def isGetFor (vol : String) : DriverCall → Bool
  | DriverCall.getVolume v => v == vol
  | _ => false

/-- A driver whose every response is an error, for exercising the
reconciler. -/
def errDriver : VolumeDriver :=
  { unmountVolumeRes := fun _ => some "fail",
    getVolumeRes := fun _ => Except.error "fail",
    mountVolumeRes := fun _ _ _ _ _ => Except.error "fail" }

/-- A driver reporting an ext4 read-write volume, for exercising the
reconciler. -/
def okDriver : VolumeDriver :=
  { unmountVolumeRes := fun _ => none,
    getVolumeRes := fun _ =>
      Except.ok [("fstype", GoVal.str "ext4"), ("access", GoVal.str "read-write")],
    mountVolumeRes := fun _ _ _ _ _ => Except.ok "/mnt/vmdk/vol" }

/-- A driver whose GetVolume answer lacks a string fstype value, for
exercising the type-assertion panic. -/
def badFstypeDriver : VolumeDriver :=
  { unmountVolumeRes := fun _ => none,
    getVolumeRes := fun _ => Except.ok [("fstype", GoVal.other)],
    mountVolumeRes := fun _ _ _ _ _ => Except.ok "/mnt/vmdk/vol" }

/-! ## Association list lemmas -/

theorem mapGet_mapSet_self (k : String) (v : refCount) :
    ∀ s : RefMap, mapGet k (mapSet k v s) = some v := by
  intro s
  induction s with
  | nil => simp [mapGet, mapSet]
  | cons e rest ih =>
    obtain ⟨q, w⟩ := e
    by_cases hq : q = k
    · simp [mapSet, hq, mapGet]
    · simp [mapSet, hq, mapGet, ih]

theorem mapGet_eq_none_of_not_mem (k : String) :
    ∀ s : RefMap, k ∉ s.map Prod.fst → mapGet k s = none := by
  intro s
  induction s with
  | nil => intro _; rfl
  | cons e rest ih =>
    obtain ⟨q, w⟩ := e
    intro h
    simp only [List.map_cons, List.mem_cons] at h
    push_neg at h
    simp only [mapGet, if_neg (fun hq : q = k => h.1 hq.symm)]
    exact ih h.2

theorem not_mem_keys_of_mapGet_none (k : String) :
    ∀ s : RefMap, mapGet k s = none → k ∉ s.map Prod.fst := by
  intro s
  induction s with
  | nil => intro _; simp
  | cons e rest ih =>
    obtain ⟨q, w⟩ := e
    intro h
    by_cases hq : q = k
    · simp [mapGet, hq] at h
    · simp only [mapGet, if_neg hq] at h
      simp only [List.map_cons, List.mem_cons]
      push_neg
      exact ⟨fun he => hq he.symm, ih h⟩

theorem keys_mapSet_of_none (k : String) (v : refCount) :
    ∀ s : RefMap, mapGet k s = none →
      (mapSet k v s).map Prod.fst = s.map Prod.fst ++ [k] := by
  intro s
  induction s with
  | nil => intro _; simp [mapSet]
  | cons e rest ih =>
    obtain ⟨q, w⟩ := e
    intro h
    by_cases hq : q = k
    · simp [mapGet, hq] at h
    · simp only [mapGet, if_neg hq] at h
      simp [mapSet, if_neg hq, ih h]

theorem keys_mapSet_of_some (k : String) (v : refCount) :
    ∀ (s : RefMap) (w : refCount), mapGet k s = some w →
      (mapSet k v s).map Prod.fst = s.map Prod.fst := by
  intro s
  induction s with
  | nil => intro w h; simp [mapGet] at h
  | cons e rest ih =>
    obtain ⟨q, w0⟩ := e
    intro w h
    by_cases hq : q = k
    · simp [mapSet, hq]
    · simp only [mapGet, if_neg hq] at h
      simp [mapSet, if_neg hq, ih w h]

theorem keysNodup_mapSet (k : String) (v : refCount) (s : RefMap)
    (hn : keysNodup s) : keysNodup (mapSet k v s) := by
  cases h : mapGet k s with
  | none =>
    have hk := not_mem_keys_of_mapGet_none k s h
    unfold keysNodup
    rw [keys_mapSet_of_none k v s h]
    simp [List.nodup_append, hn, hk]
  | some w =>
    unfold keysNodup
    rw [keys_mapSet_of_some k v s w h]
    exact hn

theorem keys_mapDel_sublist (k : String) :
    ∀ s : RefMap, List.Sublist ((mapDel k s).map Prod.fst) (s.map Prod.fst) := by
  intro s
  induction s with
  | nil => simp [mapDel]
  | cons e rest ih =>
    obtain ⟨q, w⟩ := e
    by_cases hq : q = k
    · simp only [mapDel, if_pos hq, List.map_cons]
      exact List.sublist_cons_self _ _
    · simp only [mapDel, if_neg hq, List.map_cons]
      exact ih.cons₂ q

theorem keysNodup_mapDel (k : String) (s : RefMap)
    (hn : keysNodup s) : keysNodup (mapDel k s) :=
  List.Nodup.sublist (keys_mapDel_sublist k s) hn

theorem mapGet_mapDel_self (k : String) :
    ∀ s : RefMap, keysNodup s → mapGet k (mapDel k s) = none := by
  intro s
  induction s with
  | nil => intro _; rfl
  | cons e rest ih =>
    obtain ⟨q, w⟩ := e
    intro hn
    simp only [keysNodup, List.map_cons, List.nodup_cons] at hn
    by_cases hq : q = k
    · simp only [mapDel, if_pos hq]
      exact mapGet_eq_none_of_not_mem k rest (hq ▸ hn.1)
    · simp only [mapDel, if_neg hq, mapGet, if_neg hq]
      exact ih hn.2

/-! ## Counting lemmas for call sequences -/

theorem countIncr_cons_incr (rest : List Op) :
    countIncr (Op.incr :: rest) = countIncr rest + 1 := by
  simp [countIncr, List.count_cons]

theorem countIncr_cons_decr (rest : List Op) :
    countIncr (Op.decr :: rest) = countIncr rest := by
  simp [countIncr, List.count_cons]

theorem countDecr_cons_incr (rest : List Op) :
    countDecr (Op.incr :: rest) = countDecr rest := by
  simp [countDecr, List.count_cons]

theorem countDecr_cons_decr (rest : List Op) :
    countDecr (Op.decr :: rest) = countDecr rest + 1 := by
  simp [countDecr, List.count_cons]

theorem noUnmatchedDecr_le :
    ∀ (ops : List Op) (b : Nat), noUnmatchedDecr b ops = true →
      countDecr ops ≤ b + countIncr ops := by
  intro ops
  induction ops with
  | nil => intro b _; simp [countDecr, countIncr]
  | cons op rest ih =>
    intro b h
    cases op with
    | incr =>
      simp only [noUnmatchedDecr] at h
      have := ih (b + 1) h
      rw [countIncr_cons_incr, countDecr_cons_incr]
      omega
    | decr =>
      simp only [noUnmatchedDecr, Bool.and_eq_true, decide_eq_true_eq] at h
      have := ih (b - 1) h.2
      have hb := h.1
      rw [countIncr_cons_decr, countDecr_cons_decr]
      omega

/-- The running state of the store for a fixed volume after a balanced
sequence of Incr and Decr calls: the entry is absent at balance zero and
holds exactly the balance otherwise. -/
theorem runOps_getCount (vol : String) :
    ∀ (ops : List Op) (s : RefMap) (b : Nat),
      keysNodup s →
      mapGet vol s
        = (if b = 0 then none
           else some { count := b, mounted := false, dev := "" }) →
      noUnmatchedDecr b ops = true →
      GetCount vol (runOps vol ops s) = b + countIncr ops - countDecr ops := by
  intro ops
  induction ops with
  | nil =>
    intro s b hn hget hbal
    simp only [runOps, GetCount, countIncr, countDecr, List.count_nil]
    rw [hget]
    by_cases hb : b = 0 <;> simp [hb]
  | cons op rest ih =>
    intro s b hn hget hbal
    cases op with
    | incr =>
      have hstep : (Incr vol s).2
          = mapSet vol { count := b + 1, mounted := false, dev := "" } s := by
        by_cases hb : b = 0
        · rw [Incr, hget]; simp [hb, newRefCount]
        · rw [Incr, hget]; simp [hb]
      have hn2 : keysNodup (Incr vol s).2 := by
        rw [hstep]; exact keysNodup_mapSet vol _ s hn
      have hget2 : mapGet vol (Incr vol s).2
          = (if b + 1 = 0 then none
             else some { count := b + 1, mounted := false, dev := "" }) := by
        rw [hstep]; simp [mapGet_mapSet_self]
      simp only [noUnmatchedDecr] at hbal
      have hres := ih (Incr vol s).2 (b + 1) hn2 hget2 hbal
      simp only [runOps]
      rw [hres, countIncr_cons_incr, countDecr_cons_incr]
      omega
    | decr =>
      simp only [noUnmatchedDecr, Bool.and_eq_true, decide_eq_true_eq] at hbal
      obtain ⟨hb, hbal2⟩ := hbal
      have hbne : ¬ b = 0 := by omega
      rw [if_neg hbne] at hget
      by_cases h1 : b = 1
      · have hstep : (Decr vol s).store = mapDel vol s := by
          simp [Decr, hget, h1]
        have hn2 : keysNodup (Decr vol s).store := by
          rw [hstep]; exact keysNodup_mapDel vol s hn
        have hget2 : mapGet vol (Decr vol s).store
            = (if (0 : Nat) = 0 then none
               else some { count := 0, mounted := false, dev := "" }) := by
          rw [hstep]; simp [mapGet_mapDel_self vol s hn]
        have hres := ih (Decr vol s).store 0 hn2 hget2 (by simpa [h1] using hbal2)
        simp only [runOps]
        rw [hres, countIncr_cons_decr, countDecr_cons_decr]
        omega
      · have hc1 : ¬ (b - 1 = 0) := by omega
        have hc2 : ¬ (b - 1 ≤ 0) := by omega
        have hstep : (Decr vol s).store
            = mapSet vol { count := b - 1, mounted := false, dev := "" } s := by
          simp [Decr, hget, hbne, hc2]
        have hn2 : keysNodup (Decr vol s).store := by
          rw [hstep]; exact keysNodup_mapSet vol _ s hn
        have hget2 : mapGet vol (Decr vol s).store
            = (if b - 1 = 0 then none
               else some { count := b - 1, mounted := false, dev := "" }) := by
          rw [hstep, if_neg hc1]; simp [mapGet_mapSet_self]
        have hres := ih (Decr vol s).store (b - 1) hn2 hget2 hbal2
        simp only [runOps]
        rw [hres, countIncr_cons_decr, countDecr_cons_decr]
        omega

/-! ## Claims about the refcount store -/

/-- C1: for every volume and every sequence of n Incr and m Decr calls on
it, each decrement preceded by a matching increment, GetCount afterwards
returns max(n - m, 0); GetCount on a volume never incremented returns 0;
Incr on an absent volume creates a zero-valued record, adds one, and
returns the new count. -/
theorem getCount_after_incr_decr (vol : String) (ops : List Op)
    (h : noUnmatchedDecr 0 ops = true) :
    (GetCount vol (runOps vol ops []) : Int)
        = max ((countIncr ops : Int) - (countDecr ops : Int)) 0
  ∧ (∀ s : RefMap, mapGet vol s = none → GetCount vol s = 0)
  ∧ (∀ s : RefMap, mapGet vol s = none →
      (Incr vol s).1 = 1
      ∧ mapGet vol (Incr vol s).2
          = some { count := 1, mounted := false, dev := "" }) := by
  refine ⟨?_, ?_, ?_⟩
  · have hrun := runOps_getCount vol ops [] 0 (by simp [keysNodup]) (by simp [mapGet]) h
    have hle := noUnmatchedDecr_le ops 0 h
    rw [max_eq_left (by omega : (0 : Int) ≤ (countIncr ops : Int) - (countDecr ops : Int))]
    omega
  · intro s hs
    simp [GetCount, hs]
  · intro s hs
    constructor
    · rw [Incr, hs]; rfl
    · rw [Incr, hs]
      simpa [newRefCount] using mapGet_mapSet_self vol _ s

/-- Witness for C1 at the concrete call sequence incr, incr, decr. -/
theorem getCount_after_incr_decr_witness :
    noUnmatchedDecr 0 [Op.incr, Op.incr, Op.decr] = true
  ∧ (GetCount "vol1" (runOps "vol1" [Op.incr, Op.incr, Op.decr] []) : Int)
      = max ((countIncr [Op.incr, Op.incr, Op.decr] : Int)
          - (countDecr [Op.incr, Op.incr, Op.decr] : Int)) 0 :=
  ⟨by decide,
   (getCount_after_incr_decr "vol1" [Op.incr, Op.incr, Op.decr] (by decide)).1⟩

/-- C2: Decr on a volume absent from the store returns count 0 together
with a missing-refcount error, and the store is returned unchanged. -/
theorem decr_missing (vol : String) (s : RefMap) (h : mapGet vol s = none) :
    Decr vol s
      = { ret := 0, err := some ("Decr: Missing refcount. name=" ++ vol),
          store := s, negWarn := false } := by
  rw [Decr, h]

/-- Witness for C2 on a store holding an unrelated volume. -/
theorem decr_missing_witness :
    Decr "vol1" [("vol2", { count := 2, mounted := true, dev := "/dev/sdb" })]
      = { ret := 0, err := some ("Decr: Missing refcount. name=" ++ "vol1"),
          store := [("vol2", { count := 2, mounted := true, dev := "/dev/sdb" })],
          negWarn := false } :=
  decr_missing "vol1" _ (by decide)

/-- C3: Decr on a volume whose record has count 0 returns count 0 with no
error and removes the entry, so a subsequent GetCount returns 0. -/
theorem decr_count_zero (vol : String) (s : RefMap) (rc : refCount)
    (hn : keysNodup s) (hget : mapGet vol s = some rc) (hc : rc.count = 0) :
    Decr vol s = { ret := 0, err := none, store := mapDel vol s, negWarn := false }
  ∧ GetCount vol ((Decr vol s).store) = 0 := by
  constructor
  · simp [Decr, hget, hc]
  · simp [Decr, hget, hc, GetCount, mapGet_mapDel_self vol s hn]

/-- Witness for C3: a mounted record with count 0 is removed without
error. -/
theorem decr_count_zero_witness :
    Decr "vol1" [("vol1", { count := 0, mounted := true, dev := "/dev/sdb" })]
      = { ret := 0, err := none, store := [], negWarn := false } :=
  (decr_count_zero "vol1"
    [("vol1", { count := 0, mounted := true, dev := "/dev/sdb" })]
    { count := 0, mounted := true, dev := "/dev/sdb" }
    (by decide) (by decide) rfl).1

/-- C4: Decr on a volume whose record has count at least one decrements
by one and returns the new count with no error; when the new count
reaches zero the whole entry, mounted flag and device included, is
removed from the mapping regardless of the mounted flag, and otherwise
the entry keeps its other fields with the decremented count. -/
theorem decr_count_positive (vol : String) (s : RefMap) (rc : refCount)
    (hn : keysNodup s) (hget : mapGet vol s = some rc) (hc : rc.count ≠ 0) :
    (Decr vol s).ret = rc.count - 1
  ∧ (Decr vol s).err = none
  ∧ (rc.count - 1 = 0 →
      (Decr vol s).store = mapDel vol s
      ∧ mapGet vol ((Decr vol s).store) = none)
  ∧ (rc.count - 1 ≠ 0 →
      (Decr vol s).store = mapSet vol { rc with count := rc.count - 1 } s
      ∧ mapGet vol ((Decr vol s).store)
          = some { rc with count := rc.count - 1 }) := by
  by_cases h0 : rc.count - 1 = 0
  · have hle : rc.count - 1 ≤ 0 := by omega
    refine ⟨?_, ?_, fun _ => ⟨?_, ?_⟩, fun hne => absurd h0 hne⟩
    · simp [Decr, hget, hc, hle]
    · simp [Decr, hget, hc, hle]
    · simp [Decr, hget, hc, hle]
    · simp [Decr, hget, hc, hle, mapGet_mapDel_self vol s hn]
  · have hle : ¬ (rc.count - 1 ≤ 0) := by omega
    refine ⟨?_, ?_, fun hz => absurd hz h0, fun _ => ⟨?_, ?_⟩⟩
    · simp [Decr, hget, hc, hle]
    · simp [Decr, hget, hc, hle]
    · simp [Decr, hget, hc, hle]
    · simp [Decr, hget, hc, hle, mapGet_mapSet_self]

/-- Witness for C4: decrementing a count of 2 yields 1. -/
theorem decr_count_positive_witness :
    (Decr "vol1" [("vol1", { count := 2, mounted := true, dev := "/dev/sdb" })]).ret
      = 1 :=
  (decr_count_positive "vol1"
    [("vol1", { count := 2, mounted := true, dev := "/dev/sdb" })]
    { count := 2, mounted := true, dev := "/dev/sdb" }
    (by decide) (by decide) (by decide)).1

/-- C10: the count field is unsigned, so Decr never returns a negative
count, and the internal negative-refcount warning branch never fires. -/
theorem decr_never_negative (vol : String) (s : RefMap) :
    0 ≤ ((Decr vol s).ret : Int) ∧ (Decr vol s).negWarn = false := by
  refine ⟨by omega, ?_⟩
  cases hget : mapGet vol s with
  | none => simp [Decr, hget]
  | some rc =>
    by_cases hc : rc.count = 0
    · simp [Decr, hget, hc]
    · by_cases hle : rc.count - 1 ≤ 0 <;> simp [Decr, hget, hc, hle]

/-! ## Reconciler lemmas -/

theorem syncVolume_calls_vol (d : VolumeDriver) (dn vol : String) (cnt : refCount) :
    ∀ c ∈ (syncVolume d dn vol cnt).1, callVol c = vol := by
  intro c hc
  by_cases hm : cnt.mounted = true
  · by_cases hz : cnt.count = 0
    · simp [syncVolume, hm, hz] at hc
      simp [hc, callVol]
    · simp [syncVolume, hm, hz] at hc
  · by_cases hz : cnt.count = 0
    · simp [syncVolume, hm, hz] at hc
    · cases hg : d.getVolumeRes vol with
      | error e =>
        simp [syncVolume, recoveryMount, hm, hz, hg] at hc
        simp [hc, callVol]
      | ok status =>
        cases hs : statusGet status "fstype" with
        | none =>
          simp [syncVolume, recoveryMount, hm, hz, hg, hs] at hc
          simp [hc, callVol]
        | some gv =>
          cases gv with
          | str f =>
            simp [syncVolume, recoveryMount, hm, hz, hg, hs] at hc
            rcases hc with hc | hc <;> simp [hc, callVol]
          | other =>
            simp [syncVolume, recoveryMount, hm, hz, hg, hs] at hc
            simp [hc, callVol]

theorem syncVolume_panic_record (d : VolumeDriver) (dn vol : String)
    (cnt : refCount) (v : String)
    (h : (syncVolume d dn vol cnt).2 = some (SyncPanic.recordShouldNotExist v)) :
    cnt.count = 0 ∧ cnt.mounted = false := by
  by_cases hm : cnt.mounted = true
  · by_cases hz : cnt.count = 0 <;> simp [syncVolume, hm, hz] at h
  · by_cases hz : cnt.count = 0
    · simp only [Bool.not_eq_true] at hm
      exact ⟨hz, hm⟩
    · simp only [syncVolume, hm, hz, if_false] at h
      cases hg : d.getVolumeRes vol with
      | error e => simp [recoveryMount, hg] at h
      | ok status =>
        cases hs : statusGet status "fstype" with
        | none => simp [recoveryMount, hg, hs] at h
        | some gv =>
          cases gv with
          | str f => simp [recoveryMount, hg, hs] at h
          | other => simp [recoveryMount, hg, hs] at h

theorem syncMounts_cons_of_panic (d : VolumeDriver) (dn vol : String)
    (cnt : refCount) (rest : RefMap) (p : SyncPanic)
    (h : (syncVolume d dn vol cnt).2 = some p) :
    syncMountsWithRefCounters d dn ((vol, cnt) :: rest)
      = ((syncVolume d dn vol cnt).1, some p) := by
  simp [syncMountsWithRefCounters, h]

theorem syncMounts_cons_of_ok (d : VolumeDriver) (dn vol : String)
    (cnt : refCount) (rest : RefMap)
    (h : (syncVolume d dn vol cnt).2 = none) :
    syncMountsWithRefCounters d dn ((vol, cnt) :: rest)
      = ((syncVolume d dn vol cnt).1 ++ (syncMountsWithRefCounters d dn rest).1,
         (syncMountsWithRefCounters d dn rest).2) := by
  simp [syncMountsWithRefCounters, h]

theorem syncMounts_none_cons (d : VolumeDriver) (dn vol : String)
    (cnt : refCount) (rest : RefMap)
    (h : (syncMountsWithRefCounters d dn ((vol, cnt) :: rest)).2 = none) :
    (syncVolume d dn vol cnt).2 = none
    ∧ (syncMountsWithRefCounters d dn rest).2 = none := by
  cases hp : (syncVolume d dn vol cnt).2 with
  | some p =>
    rw [syncMounts_cons_of_panic d dn vol cnt rest p hp] at h
    simp at h
  | none =>
    rw [syncMounts_cons_of_ok d dn vol cnt rest hp] at h
    exact ⟨rfl, h⟩

theorem syncMounts_none_entry (d : VolumeDriver) (dn : String) :
    ∀ (entries : RefMap) (vol : String) (cnt : refCount),
      (vol, cnt) ∈ entries →
      (syncMountsWithRefCounters d dn entries).2 = none →
      (syncVolume d dn vol cnt).2 = none := by
  intro entries
  induction entries with
  | nil => intro vol cnt hmem; simp at hmem
  | cons e rest ih =>
    obtain ⟨q, w⟩ := e
    intro vol cnt hmem hnp
    obtain ⟨h1, h2⟩ := syncMounts_none_cons d dn q w rest hnp
    rcases List.mem_cons.mp hmem with heq | hmem2
    · injection heq with hq hw
      subst hq; subst hw
      exact h1
    · exact ih vol cnt hmem2 h2

theorem syncMounts_calls_keys (d : VolumeDriver) (dn : String) :
    ∀ entries : RefMap, ∀ c ∈ (syncMountsWithRefCounters d dn entries).1,
      callVol c ∈ entries.map Prod.fst := by
  intro entries
  induction entries with
  | nil => intro c hc; simp [syncMountsWithRefCounters] at hc
  | cons e rest ih =>
    obtain ⟨vol, cnt⟩ := e
    intro c hc
    cases hp : (syncVolume d dn vol cnt).2 with
    | some p =>
      rw [syncMounts_cons_of_panic d dn vol cnt rest p hp] at hc
      simp only [List.map_cons, List.mem_cons]
      exact Or.inl (syncVolume_calls_vol d dn vol cnt c hc)
    | none =>
      rw [syncMounts_cons_of_ok d dn vol cnt rest hp] at hc
      simp only [List.mem_append] at hc
      simp only [List.map_cons, List.mem_cons]
      rcases hc with hc | hc
      · exact Or.inl (syncVolume_calls_vol d dn vol cnt c hc)
      · exact Or.inr (ih c hc)

theorem syncMounts_filter_eq (d : VolumeDriver) (dn vol : String) (cnt : refCount) :
    ∀ entries : RefMap, keysNodup entries → (vol, cnt) ∈ entries →
      (syncMountsWithRefCounters d dn entries).2 = none →
      (syncMountsWithRefCounters d dn entries).1.filter (fun c => callVol c == vol)
        = (syncVolume d dn vol cnt).1 := by
  intro entries
  induction entries with
  | nil => intro _ hmem; simp at hmem
  | cons e rest ih =>
    obtain ⟨q, w⟩ := e
    intro hn hmem hnp
    obtain ⟨h1, h2⟩ := syncMounts_none_cons d dn q w rest hnp
    rw [syncMounts_cons_of_ok d dn q w rest h1]
    simp only [List.filter_append]
    rcases List.mem_cons.mp hmem with heq | hmem2
    · injection heq with hq hw
      subst hq; subst hw
      have hall : (syncVolume d dn vol cnt).1.filter (fun c => callVol c == vol)
          = (syncVolume d dn vol cnt).1 :=
        List.filter_eq_self.mpr (fun c hc => by
          simp [syncVolume_calls_vol d dn vol cnt c hc])
      have hvnotin : vol ∉ rest.map Prod.fst := by
        simp only [keysNodup, List.map_cons, List.nodup_cons] at hn
        exact hn.1
      have hrest : (syncMountsWithRefCounters d dn rest).1.filter
          (fun c => callVol c == vol) = [] := by
        rw [List.filter_eq_nil_iff]
        intro c hc
        have hck := syncMounts_calls_keys d dn rest c hc
        simp only [beq_iff_eq]
        intro hcv
        exact hvnotin (hcv ▸ hck)
      rw [hall, hrest, List.append_nil]
    · have hvin : vol ∈ rest.map Prod.fst :=
        List.mem_map_of_mem Prod.fst hmem2
      have hq : q ≠ vol := by
        intro he
        simp only [keysNodup, List.map_cons, List.nodup_cons] at hn
        exact hn.1 (he ▸ hvin)
      have hhead : (syncVolume d dn q w).1.filter (fun c => callVol c == vol) = [] := by
        rw [List.filter_eq_nil_iff]
        intro c hc
        have hv := syncVolume_calls_vol d dn q w c hc
        simp only [beq_iff_eq, hv]
        exact hq
      have hn2 : keysNodup rest := by
        simp only [keysNodup, List.map_cons, List.nodup_cons] at hn
        exact hn.2
      rw [hhead, ih hn2 hmem2 h2, List.nil_append]

theorem countP_eq_countP_filter (p q : DriverCall → Bool)
    (hpq : ∀ a, p a = true → q a = true) :
    ∀ l : List DriverCall, l.countP p = (l.filter q).countP p := by
  intro l
  induction l with
  | nil => simp
  | cons a l2 ih =>
    by_cases hq : q a = true
    · by_cases hp : p a = true <;>
        simp [List.countP_cons, List.filter_cons, hq, hp, ih]
    · have hp : ¬ p a = true := fun hp => hq (hpq a hp)
      simp [List.countP_cons, List.filter_cons, hq, hp, ih]

theorem syncVolume_unmountRes (d : VolumeDriver) (u : String → Option String)
    (dn vol : String) (cnt : refCount) :
    syncVolume { d with unmountVolumeRes := u } dn vol cnt
      = syncVolume d dn vol cnt := rfl

theorem syncMounts_unmountRes (d : VolumeDriver) (u : String → Option String)
    (dn : String) :
    ∀ entries : RefMap,
      syncMountsWithRefCounters { d with unmountVolumeRes := u } dn entries
        = syncMountsWithRefCounters d dn entries := by
  intro entries
  induction entries with
  | nil => rfl
  | cons e rest ih =>
    obtain ⟨vol, cnt⟩ := e
    simp only [syncMountsWithRefCounters, syncVolume_unmountRes, ih]

theorem syncVolume_mountRes (d : VolumeDriver)
    (mres : String → String → String → Bool → Bool → Except String String)
    (dn vol : String) (cnt : refCount) :
    syncVolume { d with mountVolumeRes := mres } dn vol cnt
      = syncVolume d dn vol cnt := rfl

theorem syncMounts_mountRes (d : VolumeDriver)
    (mres : String → String → String → Bool → Bool → Except String String)
    (dn : String) :
    ∀ entries : RefMap,
      syncMountsWithRefCounters { d with mountVolumeRes := mres } dn entries
        = syncMountsWithRefCounters d dn entries := by
  intro entries
  induction entries with
  | nil => rfl
  | cons e rest ih =>
    obtain ⟨vol, cnt⟩ := e
    simp only [syncMountsWithRefCounters, syncVolume_mountRes, ih]

theorem readOnlyOf_iff (status : VolumeStatus) :
    readOnlyOf status = true
      ↔ statusGet status "access" = some (GoVal.str "read-only") := by
  unfold readOnlyOf
  cases hs : statusGet status "access" with
  | none => simp
  | some v =>
    cases v with
    | str a => simp [beq_iff_eq]
    | other => simp

/-! ## Claims about the reconciler -/

/-- C6: a volume with mounted true gets exactly one UnmountVolume call
when its count is 0 and no driver calls at all when its count is
positive; no MountVolume call is issued for it in either case, and the
UnmountVolume responses have no effect on reconciliation of the
remaining volumes. -/
theorem sync_mounted_volume (d : VolumeDriver) (dn : String) (entries : RefMap)
    (vol : String) (cnt : refCount)
    (hn : keysNodup entries) (hmem : (vol, cnt) ∈ entries)
    (hm : cnt.mounted = true)
    (hp : (syncMountsWithRefCounters d dn entries).2 = none) :
    (syncMountsWithRefCounters d dn entries).1.filter (fun c => callVol c == vol)
        = (if cnt.count = 0 then [DriverCall.unmountVolume vol] else [])
  ∧ (syncMountsWithRefCounters d dn entries).1.countP (isUnmountFor vol)
        = (if cnt.count = 0 then 1 else 0)
  ∧ (syncMountsWithRefCounters d dn entries).1.countP (isMountFor vol) = 0
  ∧ (∀ u, syncMountsWithRefCounters { d with unmountVolumeRes := u } dn entries
        = syncMountsWithRefCounters d dn entries) := by
  have hfil := syncMounts_filter_eq d dn vol cnt entries hn hmem hp
  have hsv : (syncVolume d dn vol cnt).1
      = (if cnt.count = 0 then [DriverCall.unmountVolume vol] else []) := by
    by_cases hz : cnt.count = 0 <;> simp [syncVolume, hm, hz]
  have hcv_unmount : ∀ c, isUnmountFor vol c = true → (callVol c == vol) = true := by
    intro c h
    cases c <;> simp_all [isUnmountFor, callVol]
  have hcv_mount : ∀ c, isMountFor vol c = true → (callVol c == vol) = true := by
    intro c h
    cases c <;> simp_all [isMountFor, callVol]
  refine ⟨by rw [hfil, hsv], ?_, ?_, fun u => syncMounts_unmountRes d u dn entries⟩
  · rw [countP_eq_countP_filter (isUnmountFor vol) (fun c => callVol c == vol)
        hcv_unmount, hfil, hsv]
    by_cases hz : cnt.count = 0 <;> simp [hz, List.countP_cons, isUnmountFor]
  · rw [countP_eq_countP_filter (isMountFor vol) (fun c => callVol c == vol)
        hcv_mount, hfil, hsv]
    by_cases hz : cnt.count = 0 <;> simp [hz, List.countP_cons, isMountFor]

/-- Witness for C6: a store with a stale mount (count 0) and a healthy
mounted volume (count 5); the stale one receives exactly one unmount. -/
theorem sync_mounted_volume_witness :
    (syncMountsWithRefCounters errDriver "vmdk"
        [("vol1", { count := 0, mounted := true, dev := "/dev/sdb" }),
         ("vol3", { count := 5, mounted := true, dev := "/dev/sdc" })]).1.countP
      (isUnmountFor "vol1") = 1 :=
  (sync_mounted_volume errDriver "vmdk"
    [("vol1", { count := 0, mounted := true, dev := "/dev/sdb" }),
     ("vol3", { count := 5, mounted := true, dev := "/dev/sdc" })]
    "vol1" { count := 0, mounted := true, dev := "/dev/sdb" }
    (by decide) (by decide) rfl rfl).2.1

/-- C7: a record with mounted false and count 0 makes the reconciler
panic at once, processing no further entries; and for stores in which no
entry has count 0 together with mounted false, that panic can never
occur. -/
theorem sync_invariant_violation (d : VolumeDriver) (dn vol dev : String) :
    (∀ rest : RefMap,
      syncMountsWithRefCounters d dn
          ((vol, { count := 0, mounted := false, dev := dev }) :: rest)
        = ([], some (SyncPanic.recordShouldNotExist vol)))
  ∧ (∀ entries : RefMap,
      (∀ e ∈ entries, ¬ ((e.2).count = 0 ∧ (e.2).mounted = false)) →
      ∀ v, (syncMountsWithRefCounters d dn entries).2
          ≠ some (SyncPanic.recordShouldNotExist v)) := by
  constructor
  · intro rest
    have hsp : (syncVolume d dn vol { count := 0, mounted := false, dev := dev }).2
        = some (SyncPanic.recordShouldNotExist vol) := by
      simp [syncVolume]
    rw [syncMounts_cons_of_panic d dn vol _ rest _ hsp]
    have h1 : (syncVolume d dn vol { count := 0, mounted := false, dev := dev }).1
        = [] := by
      simp [syncVolume]
    rw [h1]
  · intro entries
    induction entries with
    | nil => intro _ v h; simp [syncMountsWithRefCounters] at h
    | cons e rest ih =>
      obtain ⟨q, w⟩ := e
      intro hinv v h
      cases hpl : (syncVolume d dn q w).2 with
      | some p =>
        rw [syncMounts_cons_of_panic d dn q w rest p hpl] at h
        simp only [Option.some.injEq] at h
        subst h
        have hbad := syncVolume_panic_record d dn q w v hpl
        exact hinv (q, w) (List.mem_cons_self _ _) hbad
      | none =>
        rw [syncMounts_cons_of_ok d dn q w rest hpl] at h
        exact ih (fun e2 he2 => hinv e2 (List.mem_cons_of_mem _ he2)) v h

/-- Witness for C7: a single corrupt record triggers the panic with no
driver calls. -/
theorem sync_invariant_violation_witness :
    syncMountsWithRefCounters errDriver "vmdk"
        [("volx", { count := 0, mounted := false, dev := "" })]
      = ([], some (SyncPanic.recordShouldNotExist "volx")) :=
  (sync_invariant_violation errDriver "vmdk" "volx" "").1 []

/-- C8: a volume with mounted false and positive count gets exactly one
GetVolume query; when the query succeeds the reconciler issues exactly
one MountVolume call for it, whose readOnly flag is true exactly when
the reported access mode is read-only; when the query fails only the
GetVolume call is made and no panic occurs, so the remaining volumes
are still processed. -/
theorem sync_unmounted_in_use (d : VolumeDriver) (dn : String) (entries : RefMap)
    (vol : String) (cnt : refCount)
    (hn : keysNodup entries) (hmem : (vol, cnt) ∈ entries)
    (hm : cnt.mounted = false) (hc : cnt.count ≠ 0)
    (hp : (syncMountsWithRefCounters d dn entries).2 = none) :
    (syncMountsWithRefCounters d dn entries).1.countP (isGetFor vol) = 1
  ∧ (∀ status, d.getVolumeRes vol = Except.ok status →
      ∃ fstype, statusGet status "fstype" = some (GoVal.str fstype)
      ∧ (syncMountsWithRefCounters d dn entries).1.filter
            (fun c => callVol c == vol)
          = [DriverCall.getVolume vol,
             DriverCall.mountVolume vol fstype (photonId dn status)
               (readOnlyOf status) false]
      ∧ (readOnlyOf status = true
          ↔ statusGet status "access" = some (GoVal.str "read-only")))
  ∧ (∀ e, d.getVolumeRes vol = Except.error e →
      (syncMountsWithRefCounters d dn entries).1.filter
          (fun c => callVol c == vol)
        = [DriverCall.getVolume vol]
      ∧ (syncVolume d dn vol cnt).2 = none)
  ∧ (∀ mres, syncMountsWithRefCounters { d with mountVolumeRes := mres } dn entries
        = syncMountsWithRefCounters d dn entries) := by
  have hnpe := syncMounts_none_entry d dn entries vol cnt hmem hp
  have hfil := syncMounts_filter_eq d dn vol cnt entries hn hmem hp
  have hrec : syncVolume d dn vol cnt = recoveryMount d dn vol := by
    simp [syncVolume, hm, hc]
  have hcv_get : ∀ c, isGetFor vol c = true → (callVol c == vol) = true := by
    intro c h
    cases c <;> simp_all [isGetFor, callVol]
  cases hg : d.getVolumeRes vol with
  | error e =>
    have hsv : (syncVolume d dn vol cnt).1 = [DriverCall.getVolume vol] := by
      rw [hrec]; simp [recoveryMount, hg]
    refine ⟨?_, ?_, ?_, fun mres => syncMounts_mountRes d mres dn entries⟩
    · rw [countP_eq_countP_filter (isGetFor vol) (fun c => callVol c == vol)
          hcv_get, hfil, hsv]
      simp [List.countP_cons, isGetFor]
    · intro status hok
      simp at hok
    · intro e2 _
      refine ⟨by rw [hfil, hsv], by rw [hrec]; simp [recoveryMount, hg]⟩
  | ok status =>
    have hfst : ∃ f, statusGet status "fstype" = some (GoVal.str f) := by
      rw [hrec] at hnpe
      cases hs : statusGet status "fstype" with
      | none => simp [recoveryMount, hg, hs] at hnpe
      | some gv =>
        cases gv with
        | str f => exact ⟨f, rfl⟩
        | other => simp [recoveryMount, hg, hs] at hnpe
    obtain ⟨f, hs⟩ := hfst
    have hsv : (syncVolume d dn vol cnt).1
        = [DriverCall.getVolume vol,
           DriverCall.mountVolume vol f (photonId dn status)
             (readOnlyOf status) false] := by
      rw [hrec]; simp [recoveryMount, hg, hs]
    refine ⟨?_, ?_, ?_, fun mres => syncMounts_mountRes d mres dn entries⟩
    · rw [countP_eq_countP_filter (isGetFor vol) (fun c => callVol c == vol)
          hcv_get, hfil, hsv]
      simp [List.countP_cons, isGetFor]
    · intro status2 hok
      injection hok with hst
      subst hst
      exact ⟨f, hs, by rw [hfil, hsv], readOnlyOf_iff status⟩
    · intro e hbad
      simp at hbad

/-- Witness for C8: a single unmounted volume with count 3 against a
driver reporting an ext4 read-write volume receives exactly one
GetVolume query. -/
theorem sync_unmounted_in_use_witness :
    (syncMountsWithRefCounters okDriver "vmdk"
        [("vol2", { count := 3, mounted := false, dev := "" })]).1.countP
      (isGetFor "vol2") = 1 :=
  (sync_unmounted_in_use okDriver "vmdk"
    [("vol2", { count := 3, mounted := false, dev := "" })]
    "vol2" { count := 3, mounted := false, dev := "" }
    (by decide) (by decide) rfl (by decide) rfl).1

/-- C9: in the recovery-mount path, a successful GetVolume whose status
lacks a string value at fstype makes the reconciler panic through the
unchecked type assertion, instead of logging and continuing with the
remaining volumes. -/
theorem sync_fstype_assertion (d : VolumeDriver) (dn vol : String)
    (cnt : refCount) (status : VolumeStatus)
    (hm : cnt.mounted = false) (hc : cnt.count ≠ 0)
    (hok : d.getVolumeRes vol = Except.ok status)
    (hfs : ∀ f, statusGet status "fstype" ≠ some (GoVal.str f)) :
    syncVolume d dn vol cnt
      = ([DriverCall.getVolume vol], some (SyncPanic.fstypeAssertion vol))
  ∧ (∀ rest : RefMap,
      syncMountsWithRefCounters d dn ((vol, cnt) :: rest)
        = ([DriverCall.getVolume vol], some (SyncPanic.fstypeAssertion vol))) := by
  have hsv : syncVolume d dn vol cnt
      = ([DriverCall.getVolume vol], some (SyncPanic.fstypeAssertion vol)) := by
    have hrec : syncVolume d dn vol cnt = recoveryMount d dn vol := by
      simp [syncVolume, hm, hc]
    rw [hrec]
    cases hs : statusGet status "fstype" with
    | none => simp [recoveryMount, hok, hs]
    | some gv =>
      cases gv with
      | str f => exact absurd hs (hfs f)
      | other => simp [recoveryMount, hok, hs]
  refine ⟨hsv, fun rest => ?_⟩
  rw [syncMounts_cons_of_panic d dn vol cnt rest _ (by rw [hsv])]
  rw [hsv]

/-- Witness for C9: a driver answering GetVolume with a non-string
fstype value makes the reconciler panic. -/
theorem sync_fstype_assertion_witness :
    syncVolume badFstypeDriver "vmdk" "vol2"
        { count := 3, mounted := false, dev := "" }
      = ([DriverCall.getVolume "vol2"],
         some (SyncPanic.fstypeAssertion "vol2")) :=
  (sync_fstype_assertion badFstypeDriver "vmdk" "vol2"
    { count := 3, mounted := false, dev := "" } [("fstype", GoVal.other)]
    rfl (by decide) rfl
    (fun f => by simp [statusGet])).1

/-! ## Claims about the mount table scanner -/

theorem foldl_processLine_id (dirF baseF : String → String) (root : String) :
    ∀ (ls : List String) (m : RefMap),
      (∀ m2 l, l ∈ ls → processLine dirF baseF root m2 l = m2) →
      ls.foldl (processLine dirF baseF root) m = m := by
  intro ls
  induction ls with
  | nil => intro m _; rfl
  | cons l rest ih =>
    intro m h
    simp only [List.foldl_cons]
    rw [h m l (List.mem_cons_self l rest)]
    exact ih m (fun m2 l2 hl2 => h m2 l2 (List.mem_cons_of_mem l hl2))

/-- C5: the scanner processes exactly the mount table lines with at
least two whitespace-separated fields whose mount point parent directory
equals the mount root, fetching or creating the record named by the
final path component of the mount point and setting mounted true and
dev to the first field; every other line leaves the store unchanged, and
a table of only such lines leaves getMountInfo at the initial store. -/
theorem getMountInfo_scan (dirF baseF : String → String) (root : String) :
    (∀ (m : RefMap) (line : String), (goFields line).length < 2 →
        processLine dirF baseF root m line = m)
  ∧ (∀ (m : RefMap) (line : String) (f0 f1 : String) (rest : List String),
      goFields line = f0 :: f1 :: rest →
      (dirF f1 ≠ root → processLine dirF baseF root m line = m)
      ∧ (dirF f1 = root →
          processLine dirF baseF root m line
            = mapSet (baseF f1)
                { (mapGet (baseF f1) m).getD newRefCount with
                    mounted := true, dev := f0 } m
          ∧ mapGet (baseF f1) (processLine dirF baseF root m line)
            = some { (mapGet (baseF f1) m).getD newRefCount with
                    mounted := true, dev := f0 }))
  ∧ (∀ (data : String) (m : RefMap),
      (∀ m2 l, l ∈ goLines data → processLine dirF baseF root m2 l = m2) →
      getMountInfo dirF baseF root data m = m) := by
  refine ⟨?_, ?_, ?_⟩
  · intro m line hlen
    cases hf : goFields line with
    | nil => simp [processLine, hf]
    | cons f0 fs =>
      cases fs with
      | nil => simp [processLine, hf]
      | cons f1 rest =>
        rw [hf] at hlen
        simp only [List.length_cons] at hlen
        omega
  · intro m line f0 f1 rest hf
    constructor
    · intro hne
      simp only [processLine, hf]
      rw [if_pos hne]
    · intro heq
      have h1 : processLine dirF baseF root m line
          = mapSet (baseF f1)
              { (mapGet (baseF f1) m).getD newRefCount with
                  mounted := true, dev := f0 } m := by
        simp only [processLine, hf]
        rw [if_neg (fun hcon => hcon heq)]
      exact ⟨h1, by rw [h1]; exact mapGet_mapSet_self (baseF f1) _ m⟩
  · intro data m h
    unfold getMountInfo
    exact foldl_processLine_id dirF baseF root (goLines data) m h

/-- Witness for C5: scanning the line for /mnt/vmdk/vol1 on /dev/sdb1
against the empty store records vol1 as mounted from /dev/sdb1. -/
theorem getMountInfo_scan_witness :
    processLine simpleDir simpleBase "/mnt/vmdk" []
        "/dev/sdb1 /mnt/vmdk/vol1 ext2 rw,relatime 0 0"
      = mapSet (simpleBase "/mnt/vmdk/vol1")
          { (mapGet (simpleBase "/mnt/vmdk/vol1") []).getD newRefCount with
              mounted := true, dev := "/dev/sdb1" } [] :=
  (((getMountInfo_scan simpleDir simpleBase "/mnt/vmdk").2.1 []
      "/dev/sdb1 /mnt/vmdk/vol1 ext2 rw,relatime 0 0"
      "/dev/sdb1" "/mnt/vmdk/vol1" ["ext2", "rw,relatime", "0", "0"]
      (by decide)).2 (by decide)).1

end Refcount
